import Mathlib

/-!
Verification development for the picture-organization utility
(`organize_pictures_py.py`).

The Python program is shallowly embedded here.  Python strings are
modelled as `List Char` (a Python string is a sequence of code points);
the Python string operations used by the program (`split`, `strip`,
`lower`, `replace`, `isdigit`, `startswith`, `endswith`, `in`) are
defined below with Python semantics, restricted to ASCII text (the
program only manipulates ASCII column names, filenames and separator
characters; Unicode-only behaviours of `lower`/`isdigit`/`strip` are out
of scope of this model).

External collaborators are modelled at their narrow contract boundary:
the `re.search` for the table shape is represented by a `TableSearch`
value (the two regex capture groups when a table block is found), the
file system by an explicit record of existing file and directory paths,
and the external metadata tool by a trace of the command lists handed to
it.  `os.makedirs`, the metadata invocation and `shutil.move` are
modelled as succeeding; the claims settled here do not depend on their
failure branches.
-/

/-- Convert a string literal to the `List Char` representation used
throughout this development. -/
def str (s : String) : List Char := s.toList

/-- The character with the given code point (used for the single-quote
character, code point 39, appearing inside metadata command strings). -/
def quoteChar : Char := Char.ofNat 39

/-- Python `s.split(sep)` for a single separator character:
`"a|b".split("|") = ["a","b"]`, `"".split("|") = [""]`,
`"|".split("|") = ["",""]`. -/
def pySplit (sep : Char) : List Char → List (List Char)
  | [] => [[]]
  | c :: cs =>
    match pySplit sep cs with
    | [] => [[c]]
    | x :: xs => if c = sep then [] :: x :: xs else (c :: x) :: xs

/-- Python `s.strip()`: remove whitespace from both ends. -/
def pyStrip (l : List Char) : List Char :=
  ((l.dropWhile Char.isWhitespace).reverse.dropWhile Char.isWhitespace).reverse

/-- Python `s.lower()` (ASCII). -/
def pyLower (l : List Char) : List Char := l.map Char.toLower

/-- Python `s.replace(a, b)` for single characters. -/
def pyReplace (a b : Char) (l : List Char) : List Char :=
  l.map fun c => if c = a then b else c

/-- Python `s.isdigit()` (ASCII): non-empty and all digits. -/
def pyIsDigit (l : List Char) : Bool := !l.isEmpty && l.all Char.isDigit

/-- Python `sub in s` (substring test). -/
def pyContainsSub (r : List Char) : List Char → Bool
  | [] => r.isEmpty
  | c :: cs => r.isPrefixOf (c :: cs) || pyContainsSub r cs

/-- Python `s.endswith(t)`. -/
def pyEndsWith (t l : List Char) : Bool := t.isSuffixOf l

/-- Python `int(s)` on a string of ASCII digits. -/
def natOfDigits (l : List Char) : Nat :=
  l.foldl (fun n c => 10 * n + (c.toNat - 48)) 0

/-- Python `str(n)` for a natural number. -/
def natToStr (n : Nat) : List Char := (Nat.repr n).toList

/-- `sanitize_filename` (source lines 47-52): replace each character of
the fixed invalid set with an underscore, one `replace` per character,
then strip leading/trailing whitespace. -/
def sanitize_filename (filename : List Char) : List Char :=
  pyStrip ((str "<>:\"/\\|?*").foldl (fun acc ch => pyReplace ch '_' acc) filename)

/-- Header normalization (source line 91): `h.lower().replace(' ', '')`. -/
def normHeader (h : List Char) : List Char :=
  (pyLower h).filter (fun c => !(c = ' '))

/-- The canonical column keys of a header line (source line 85 and the
loop at lines 89-93): split on the pipe character, strip each cell, drop
cells that are empty after stripping, then normalize each. -/
def headersOf (hstr : List Char) : List (List Char) :=
  (((pySplit '|' hstr).map pyStrip).filter (fun h => !h.isEmpty)).map normHeader

/-- The required canonical column keys (source line 96). -/
def required_headers : List (List Char) :=
  [str "currentfilename", str "suggestedfilename", str "area"]

/-- Index of the first occurrence of `a`, mirroring Python `list.index`
(only used under a membership guard, as in the source). -/
def idxOf (a : List Char) : List (List Char) → Nat
  | [] => 0
  | b :: bs => if b = a then 0 else idxOf a bs + 1

/-- The cells of one body line (source line 125):
`[cell.strip() for cell in row.split('|') if cell]` — note that the
emptiness filter runs *before* stripping, so segments that are empty
before stripping are discarded wherever they occur, while whitespace-only
segments survive as empty cells. -/
def cellsOf (line : List Char) : List (List Char) :=
  ((pySplit '|' line).filter (fun c => !c.isEmpty)).map pyStrip

/-- One parsed row dictionary (source lines 127-137). The three required
keys are always present; `Date`/`Tags` are present only when that column
exists in the header and the line has a cell at its index. -/
structure RowDict where
  currentFileName : List Char
  suggestedFileName : List Char
  area : List Char
  date : Option (List Char)
  tags : Option (List Char)
deriving DecidableEq

/-- Conversion of one body line into a row (source lines 124-141): kept
iff it has enough cells to cover every *required* column index; optional
columns are looked up only when additionally in range. -/
def parseRow (cIdx sIdx aIdx : Nat) (dIdx tIdx : Option Nat)
    (line : List Char) : Option RowDict :=
  let cells := cellsOf line
  if cells.length ≥ max cIdx (max sIdx aIdx) + 1 then
    some {
      currentFileName := cells.getD cIdx []
      suggestedFileName := cells.getD sIdx []
      area := cells.getD aIdx []
      date := match dIdx with
        | some d => if d < cells.length then some (cells.getD d []) else none
        | none => none
      tags := match tIdx with
        | some t => if t < cells.length then some (cells.getD t []) else none
        | none => none }
  else
    none

/-- Result of `re.search` for the table pattern: either no table block,
or the two capture groups (header line, body block). -/
inductive TableSearch where
  | notFound : TableSearch
  | found (headersStr rowsStr : List Char) : TableSearch
deriving DecidableEq

/-- `parse_markdown_table` (source lines 66-147), from the regex result
onward.  The `missing_headers` loop (lines 99-106) records a required
key as missing only when no canonical column *contains* it as a
substring; when such a soft match exists the key is not recorded, but
the subsequent `headers.index(...)` call (lines 114-116) then raises
`ValueError`, which the enclosing `try` (line 145-147) converts to
`None`.  That exception path is modelled by the final membership guard. -/
def parse_markdown_table : TableSearch → Option (List RowDict)
  | .notFound => none
  | .found hstr rstr =>
    let headers := headersOf hstr
    let missing_headers := required_headers.filter fun r =>
      !headers.contains r && !(headers.any fun h => pyContainsSub r h)
    if missing_headers ≠ [] then none
    else if (str "currentfilename") ∈ headers ∧ (str "suggestedfilename") ∈ headers ∧
        (str "area") ∈ headers then
      let cIdx := idxOf (str "currentfilename") headers
      let sIdx := idxOf (str "suggestedfilename") headers
      let aIdx := idxOf (str "area") headers
      let dIdx := if (str "date") ∈ headers then some (idxOf (str "date") headers) else none
      let tIdx := if (str "tags") ∈ headers then some (idxOf (str "tags") headers) else none
      some ((pySplit '\n' (pyStrip rstr)).filterMap (parseRow cIdx sIdx aIdx dIdx tIdx))
    else none

/-- The file system as seen by the program: sets of existing file paths
and directory paths (`os.path.isfile` consults `files`,
`os.path.exists` consults both). -/
structure FS where
  files : List (List Char)
  dirs : List (List Char)
deriving DecidableEq

/-- `os.path.exists`. -/
def FS.existsPath (fs : FS) (p : List Char) : Bool :=
  fs.files.contains p || fs.dirs.contains p

/-- `os.path.join` for the relative second components the program uses. -/
def pathJoin (a b : List Char) : List Char := a ++ '/' :: b

/-- `create_folder` (source lines 54-64): create the directory when it
does not exist.  Creation is modelled as succeeding. -/
def create_folder (fs : FS) (p : List Char) : FS :=
  if fs.existsPath p then fs else { files := fs.files, dirs := p :: fs.dirs }

/-- `os.path.splitext` (no path separators occur in the names it is
applied to here): split at the last dot, provided some earlier character
of the name is not a dot. -/
def splitext (l : List Char) : List Char × List Char :=
  let extLen := (l.reverse.takeWhile (fun c => !(c = '.'))).length
  if extLen = l.length then (l, [])
  else
    let dotIdx := l.length - extLen - 1
    if (l.take dotIdx).any (fun c => !(c = '.')) then (l.take dotIdx, l.drop dotIdx)
    else (l, [])

/-- The current-filename normalization (source lines 202-219): strip
everything after the first dot, re-stringify an all-digit base (or a
base that starts with a zero followed by digits) through `int`, then
append `".jpg"` on both branches of the extension test. -/
def normalizeCurrentFile (current_file : List Char) : List Char :=
  let base_file :=
    if current_file.contains '.' then (pySplit '.' current_file).headD []
    else current_file
  let base_file :=
    if pyIsDigit base_file then natToStr (natOfDigits base_file)
    else if base_file.headD ' ' = '0' && pyIsDigit base_file.tail then
      natToStr (natOfDigits base_file)
    else base_file
  if pyEndsWith (str ".jpg") (pyLower current_file) then base_file ++ str ".jpg"
  else base_file ++ str ".jpg"

/-- The tags rewrite (source lines 266-270): strip, then replace each
semicolon with a comma when a semicolon is present. -/
def tagsValue (t : List Char) : List Char :=
  let tags := pyStrip t
  if tags.contains ';' then pyReplace ';' ',' tags else tags

/-- The metadata command list built for one row (source lines 257-271). -/
def metadataCommands (row : RowDict) : List (List Char) :=
  (match row.date with
    | some d => if !(pyStrip d).isEmpty then
        [str "-DateTimeOriginal=" ++ quoteChar :: pyStrip d ++ [quoteChar]] else []
    | none => []) ++
  (match row.tags with
    | some t => if !(pyStrip t).isEmpty then
        [str "-Keywords=" ++ quoteChar :: tagsValue t ++ [quoteChar]] else []
    | none => [])

/-- The mutable per-run state owned by the orchestrator: the counters and
error list of the source, the file system, and observation counters
(rows entered, moves performed, metadata invocations) used to state the
claims. -/
structure RunState where
  successCount : Nat
  errorCount : Nat
  errorFiles : List (List Char)
  processed : Nat
  movedCount : Nat
  stamps : List (List (List Char) × List Char)
  fs : FS
deriving DecidableEq

/-- The run environment: availability of the external tool, presence of
the input file, the regex search result on its contents, the working
directory, the collision timestamp, and the initial file system. -/
structure Env where
  exiftoolAvailable : Bool
  markdownExists : Bool
  table : TableSearch
  cwd : List Char
  timestamp : List Char
  fs : FS
deriving DecidableEq

/-- The state a run starts from. -/
def initState (env : Env) : RunState :=
  { successCount := 0, errorCount := 0, errorFiles := [], processed := 0,
    movedCount := 0, stamps := [], fs := env.fs }

/-- Processing of one row (the loop body, source lines 185-310). -/
def processRow (env : Env) (st : RunState) (row : RowDict) : RunState :=
  let st := { st with processed := st.processed + 1 }
  let current_file := pyStrip row.currentFileName
  let suggested_name := pyStrip row.suggestedFileName
  let area := pyStrip row.area
  if current_file.isEmpty || suggested_name.isEmpty || area.isEmpty then
    { st with errorCount := st.errorCount + 1 }
  else
    let suggested_name := sanitize_filename suggested_name
    let area := sanitize_filename area
    let current_file := normalizeCurrentFile current_file
    let suggested_name :=
      if pyEndsWith (str ".jpg") (pyLower suggested_name) then suggested_name
      else suggested_name ++ str ".jpg"
    let current_path := pathJoin env.cwd current_file
    let area_dir := pathJoin env.cwd area
    let new_path := pathJoin area_dir suggested_name
    if !(st.fs.files.contains current_path) then
      { st with errorCount := st.errorCount + 1,
                errorFiles := st.errorFiles ++ [current_file ++ str " - File not found"] }
    else
      let fs := create_folder st.fs area_dir
      let new_path :=
        if fs.existsPath new_path then
          let pr := splitext suggested_name
          pathJoin area_dir (pr.1 ++ '_' :: env.timestamp ++ pr.2)
        else new_path
      let cmds := metadataCommands row
      let fs :=
        if cmds.isEmpty then fs
        else { fs with files := fs.files.erase (current_path ++ str "_original") }
      let stamps := if cmds.isEmpty then st.stamps else st.stamps ++ [(cmds, current_path)]
      let fs := { fs with files := new_path :: fs.files.erase current_path }
      { st with fs := fs, stamps := stamps,
                successCount := st.successCount + 1,
                movedCount := st.movedCount + 1 }

/-- Outcome of a whole run: the boolean returned by `organize_pictures`
together with the final state. -/
structure RunResult where
  ok : Bool
  st : RunState
deriving DecidableEq

/-- `organize_pictures` (source lines 149-338): abort when the external
tool is unavailable, then when the input file is absent, then when the
parse yields `None` *or an empty row list* (`if not file_data`);
otherwise fold the row processor over the rows and return `True`. -/
def organize_pictures (env : Env) : RunResult :=
  if !env.exiftoolAvailable then { ok := false, st := initState env }
  else if !env.markdownExists then { ok := false, st := initState env }
  else
    match parse_markdown_table env.table with
    | none => { ok := false, st := initState env }
    | some rows =>
      if rows.isEmpty then { ok := false, st := initState env }
      else { ok := true, st := rows.foldl (processRow env) (initState env) }

/-! ## Definitions written from the claim wording (for refinement
comparisons against the source-derived definitions above) -/

/-- Claim-worded normalization of `CurrentFileName`: strip everything
after the first dot, convert an all-digit base (or a leading zero
followed by digits) to its minimal decimal string representation, and
append the fixed `.jpg` extension unconditionally. -/
def claimNormalizeCurrentFile (s : List Char) : List Char :=
  let base := s.takeWhile (fun c => !(c = '.'))
  let base :=
    if pyIsDigit base || (base.headD ' ' = '0' && pyIsDigit base.tail) then
      natToStr (natOfDigits base)
    else base
  base ++ str ".jpg"

/-- Claim-worded cell extraction: the pipe-delimited segments each
trimmed, with only the empty leading and trailing segments discarded. -/
def claimCells (line : List Char) : List (List Char) :=
  ((((pySplit '|' line).dropWhile (fun s => s.isEmpty)).reverse.dropWhile
      (fun s => s.isEmpty)).reverse).map pyStrip

/-- Claim-worded canonical column key: the trimmed cell lowercased with
all whitespace removed. -/
def claimHeaderKey (cell : List Char) : List Char :=
  (pyLower (pyStrip cell)).filter (fun c => !c.isWhitespace)

/-! ## Helper lemmas -/

theorem pySplit_ne_nil (sep : Char) (l : List Char) : pySplit sep l ≠ [] := by
  cases l with
  | nil => simp [pySplit]
  | cons c cs =>
    simp only [pySplit]
    cases h : pySplit sep cs with
    | nil => simp
    | cons x xs =>
      by_cases hc : c = sep <;> simp [hc]

theorem pySplit_headD (sep : Char) (l : List Char) :
    (pySplit sep l).headD [] = l.takeWhile (fun c => !(c = sep)) := by
  induction l with
  | nil => simp [pySplit]
  | cons c cs ih =>
    simp only [pySplit, List.takeWhile_cons]
    cases h : pySplit sep cs with
    | nil => exact absurd h (pySplit_ne_nil sep cs)
    | cons x xs =>
      rw [h] at ih
      by_cases hc : c = sep <;> simp [hc, ← ih]

theorem takeWhile_ne_eq_self {sep : Char} {l : List Char} (h : ¬ l.contains sep) :
    l.takeWhile (fun c => !(c = sep)) = l := by
  induction l with
  | nil => rfl
  | cons c cs ih =>
    simp only [List.contains_cons, Bool.or_eq_true, not_or] at h
    have hc : ¬ c = sep := by
      intro hcc
      exact h.1 (by simp [hcc])
    rw [List.takeWhile_cons_of_pos (by simp [hc]), ih (by simpa using h.2)]

/-- The character-level effect of the replacement loop in
`sanitize_filename`. -/
def sanitizeChar (c : Char) : Char :=
  if c ∈ str "<>:\"/\\|?*" then '_' else c

theorem foldl_pyReplace_eq_map (cs : List Char) :
    ∀ (l : List Char), '_' ∉ cs →
      cs.foldl (fun acc ch => pyReplace ch '_' acc) l =
        l.map (fun c => if c ∈ cs then '_' else c) := by
  induction cs with
  | nil =>
    intro l _
    simp
  | cons a as ih =>
    intro l h
    have ha : '_' ∉ as := fun hm => h (List.mem_cons_of_mem a hm)
    have hne : ¬ ('_' : Char) = a := fun he => h (he ▸ List.mem_cons_self a as)
    rw [List.foldl_cons, ih (pyReplace a '_' l) ha, pyReplace, List.map_map]
    refine List.map_congr_left fun c _ => ?_
    by_cases hca : c = a
    · subst hca
      simp [ha, hne]
    · by_cases hcas : c ∈ as <;> simp [hca, hcas, Function.comp]

theorem sanitize_filename_eq_map (l : List Char) :
    sanitize_filename l = pyStrip (l.map sanitizeChar) := by
  rw [sanitize_filename, foldl_pyReplace_eq_map _ l (by decide)]
  rfl

theorem sanitizeChar_idem (c : Char) : sanitizeChar (sanitizeChar c) = sanitizeChar c := by
  by_cases h : c ∈ str "<>:\"/\\|?*"
  · have h1 : sanitizeChar c = '_' := by rw [sanitizeChar, if_pos h]
    rw [h1]
    decide
  · have h1 : sanitizeChar c = c := by rw [sanitizeChar, if_neg h]
    rw [h1, h1]

theorem sanitizeChar_isWhitespace (c : Char) :
    (sanitizeChar c).isWhitespace = c.isWhitespace := by
  by_cases h : c ∈ str "<>:\"/\\|?*"
  · have : ∀ x ∈ str "<>:\"/\\|?*", Char.isWhitespace x = false := by decide
    rw [sanitizeChar, if_pos h, this c h]
    decide
  · rw [sanitizeChar, if_neg h]

theorem pyStrip_map (f : Char → Char)
    (hf : ∀ c, (f c).isWhitespace = c.isWhitespace) (l : List Char) :
    pyStrip (l.map f) = (pyStrip l).map f := by
  have hp : Char.isWhitespace ∘ f = Char.isWhitespace := funext hf
  rw [pyStrip, pyStrip, List.dropWhile_map, hp, ← List.map_reverse,
    List.dropWhile_map, hp, ← List.map_reverse]

theorem dropWhile_idem (p : α → Bool) (l : List α) :
    (l.dropWhile p).dropWhile p = l.dropWhile p := by
  induction l with
  | nil => rfl
  | cons a t ih =>
    by_cases h : p a
    · simp [List.dropWhile_cons, h, ih]
    · simp [List.dropWhile_cons, h]

theorem dropWhile_rev_dropWhile_rev (p : α → Bool) (y : List α)
    (hy : y.dropWhile p = y) :
    ((y.reverse.dropWhile p).reverse).dropWhile p = (y.reverse.dropWhile p).reverse := by
  cases y with
  | nil => simp
  | cons a t =>
    have hpa : p a = false := by
      rw [List.dropWhile_cons] at hy
      by_cases h : p a
      · rw [if_pos h] at hy
        have := (List.dropWhile_sublist (l := t) p).length_le
        rw [hy] at this
        simp at this
      · simpa using h
    rw [List.reverse_cons, List.dropWhile_append]
    by_cases he : (t.reverse.dropWhile p).isEmpty
    · rw [if_pos he]
      simp [List.dropWhile_cons, hpa]
    · rw [if_neg he]
      rw [List.reverse_append]
      simp [List.dropWhile_cons, hpa]

theorem pyStrip_idem (l : List Char) : pyStrip (pyStrip l) = pyStrip l := by
  have hA : (l.dropWhile Char.isWhitespace).dropWhile Char.isWhitespace
      = l.dropWhile Char.isWhitespace := dropWhile_idem _ l
  rw [pyStrip, pyStrip]
  rw [dropWhile_rev_dropWhile_rev Char.isWhitespace (l.dropWhile Char.isWhitespace) hA]
  rw [List.reverse_reverse, dropWhile_idem]


theorem tagsValue_eq_replace (t : List Char) :
    tagsValue t = pyReplace ';' ',' (pyStrip t) := by
  rw [tagsValue]
  by_cases h : (pyStrip t).contains ';'
  · rw [if_pos h]
  · rw [if_neg h]
    have hmem : (';' : Char) ∉ pyStrip t := by simpa using h
    have hfix : ∀ c ∈ pyStrip t, (if c = ';' then ',' else c) = c := by
      intro c hc
      rw [if_neg]
      intro he
      rw [he] at hc
      exact hmem hc
    exact ((List.map_congr_left hfix).trans (List.map_id' _)).symm

theorem filter_not_eq_middle (p : α → Bool) (l : List α)
    (h : ∀ s ∈ ((l.dropWhile p).reverse.dropWhile p).reverse, p s = false) :
    l.filter (fun s => !p s) = ((l.dropWhile p).reverse.dropWhile p).reverse := by
  have hl : l.takeWhile p ++ l.dropWhile p = l := List.takeWhile_append_dropWhile p l
  have hA : ((l.dropWhile p).reverse.takeWhile p ++ (l.dropWhile p).reverse.dropWhile p).reverse
      = l.dropWhile p := by
    rw [List.takeWhile_append_dropWhile, List.reverse_reverse]
  have h1 : (l.takeWhile p).filter (fun s => !p s) = [] := by
    rw [List.filter_eq_nil_iff]
    intro a ha
    simp [List.mem_takeWhile_imp ha]
  have h2 : ((l.dropWhile p).reverse.takeWhile p).reverse.filter (fun s => !p s) = [] := by
    rw [List.filter_eq_nil_iff]
    intro a ha
    simp [List.mem_takeWhile_imp (List.mem_reverse.mp ha)]
  have h3 : ((l.dropWhile p).reverse.dropWhile p).reverse.filter (fun s => !p s)
      = ((l.dropWhile p).reverse.dropWhile p).reverse := by
    rw [List.filter_eq_self]
    intro a ha
    simp [h a ha]
  calc l.filter (fun s => !p s)
      = (l.takeWhile p ++ l.dropWhile p).filter (fun s => !p s) := by rw [hl]
    _ = (l.dropWhile p).filter (fun s => !p s) := by rw [List.filter_append, h1]; simp
    _ = (((l.dropWhile p).reverse.takeWhile p ++ (l.dropWhile p).reverse.dropWhile p).reverse).filter
          (fun s => !p s) := by rw [hA]
    _ = ((l.dropWhile p).reverse.dropWhile p).reverse := by
          rw [List.reverse_append, List.filter_append, h2, h3]
          simp

/-! ## Claim theorems -/

/-- C3: the normalized source file name strips everything after the
first dot of the raw `CurrentFileName`, converts an all-digit base (or a
leading zero followed by digits) to its minimal decimal string
representation, and appends the fixed `.jpg` extension unconditionally;
normalizing `"01"` yields `"1.jpg"` and `"007.png"` yields `"7.jpg"`. -/
theorem normalize_current_filename_matches_claim :
    (∀ s, normalizeCurrentFile s = claimNormalizeCurrentFile s) ∧
    normalizeCurrentFile (str "01") = str "1.jpg" ∧
    normalizeCurrentFile (str "007.png") = str "7.jpg" := by
  refine ⟨fun s => ?_, by decide, by decide⟩
  have hbase : (if s.contains '.' then (pySplit '.' s).headD [] else s)
      = s.takeWhile (fun c => !(c = '.')) := by
    by_cases h : s.contains '.'
    · rw [if_pos h, pySplit_headD]
    · rw [if_neg h, takeWhile_ne_eq_self h]
  simp only [normalizeCurrentFile, claimNormalizeCurrentFile, hbase, ite_self]
  by_cases h1 : pyIsDigit (s.takeWhile (fun c => !(c = '.')))
  · simp [h1]
  · by_cases h2 : (s.takeWhile (fun c => !(c = '.'))).headD ' ' = '0'
      && pyIsDigit (s.takeWhile (fun c => !(c = '.'))).tail
    · simp [h1, h2]
    · simp [h1, h2]

/-- C7: sanitization is idempotent — replacing every character of the
fixed invalid set with an underscore and then trimming, applied twice,
equals applying it once. -/
theorem sanitize_filename_idempotent :
    ∀ s, sanitize_filename (sanitize_filename s) = sanitize_filename s := by
  intro s
  have hmap : ∀ l : List Char, (l.map sanitizeChar).map sanitizeChar = l.map sanitizeChar := by
    intro l
    induction l with
    | nil => rfl
    | cons a u ih => simp [sanitizeChar_idem a, ih]
  calc sanitize_filename (sanitize_filename s)
      = pyStrip ((sanitize_filename s).map sanitizeChar) := sanitize_filename_eq_map _
    _ = pyStrip ((pyStrip (s.map sanitizeChar)).map sanitizeChar) := by
        rw [sanitize_filename_eq_map s]
    _ = (pyStrip (pyStrip (s.map sanitizeChar))).map sanitizeChar :=
        pyStrip_map sanitizeChar sanitizeChar_isWhitespace (pyStrip (s.map sanitizeChar))
    _ = (pyStrip (s.map sanitizeChar)).map sanitizeChar := by rw [pyStrip_idem]
    _ = pyStrip ((s.map sanitizeChar).map sanitizeChar) :=
        (pyStrip_map sanitizeChar sanitizeChar_isWhitespace (s.map sanitizeChar)).symm
    _ = pyStrip (s.map sanitizeChar) := by rw [hmap]
    _ = sanitize_filename s := (sanitize_filename_eq_map s).symm

/-- C2 (amended): a body line is kept if and only if it has enough cells
to cover every *required* column index; a line that covers the required
indices but not a present optional (`date`/`tags`) index is still kept,
with that optional field simply absent. -/
theorem row_retention_requires_only_required_indices :
    (∀ cIdx sIdx aIdx dIdx tIdx line,
      (parseRow cIdx sIdx aIdx dIdx tIdx line).isSome =
        decide ((cellsOf line).length ≥ max cIdx (max sIdx aIdx) + 1)) ∧
    parseRow 0 1 2 (some 3) none (str "| a | b | c |") =
      some { currentFileName := str "a", suggestedFileName := str "b", area := str "c",
             date := none, tags := none } := by
  constructor
  · intro cIdx sIdx aIdx dIdx tIdx line
    simp only [parseRow]
    by_cases h : (cellsOf line).length ≥ max cIdx (max sIdx aIdx) + 1
    · rw [if_pos h]
      simp [h]
    · rw [if_neg h]
      simp [h]
  · decide

/-- C2 (counterexample): with a `date` column present at index 3, a line
with only 3 cells does not cover the optional index, yet it is kept (with
`Date` absent) rather than dropped, refuting the claimed "if and only
if". -/
theorem row_kept_without_optional_cells_cex :
    headersOf (str "Current File Name|Suggested File Name|Area|Date") =
      [str "currentfilename", str "suggestedfilename", str "area", str "date"] ∧
    parse_markdown_table (.found (str "Current File Name|Suggested File Name|Area|Date")
        (str "| a | b | c |")) =
      some [{ currentFileName := str "a", suggestedFileName := str "b", area := str "c",
              date := none, tags := none }] ∧
    (cellsOf (str "| a | b | c |")).length < 3 + 1 := by
  decide

/-- C4 (counterexample): in `"| a || b |"` the interior empty segment is
discarded by the pre-trim emptiness filter, so the code yields two cells
where the claim (interior segments retained) yields three. -/
theorem interior_empty_segment_dropped_cex :
    cellsOf (str "| a || b |") = [str "a", str "b"] ∧
    claimCells (str "| a || b |") = [str "a", [], str "b"] := by
  decide

/-- C4 (amended): cells are the pipe-delimited segments that are
non-empty before trimming, each then trimmed; every empty segment is
discarded wherever it occurs, so the claimed description (only leading
and trailing empty segments discarded) holds exactly when no interior
segment is empty — in particular whitespace-only interior segments are
retained as empty cells. -/
theorem cells_keep_nonempty_segments (line : List Char)
    (h : ∀ s ∈ (((pySplit '|' line).dropWhile (fun s => s.isEmpty)).reverse.dropWhile
        (fun s => s.isEmpty)).reverse, s.isEmpty = false) :
    cellsOf line = claimCells line := by
  rw [cellsOf, claimCells, filter_not_eq_middle (fun s => s.isEmpty) (pySplit '|' line) h]

theorem cells_keep_nonempty_segments_witness :
    cellsOf (str "| a | | b |") = claimCells (str "| a | | b |") ∧
    claimCells (str "| a | | b |") = [str "a", [], str "b"] :=
  ⟨cells_keep_nonempty_segments (str "| a | | b |") (by decide), by decide⟩

/-- C5 (counterexample): the code removes only space characters from a
header cell (`.replace(' ', '')`), not all whitespace: a tab inside
`"Current\tFile Name"` survives normalization, the claimed key does not
match the key computed by the code, and required-column matching fails on a header
whose only deviation is an interior tab. -/
theorem tab_in_header_key_cex :
    normHeader (pyStrip (str "Current\tFile Name")) ≠ claimHeaderKey (str "Current\tFile Name") ∧
    claimHeaderKey (str "Current\tFile Name") = str "currentfilename" ∧
    str "currentfilename" ∉ headersOf (str "Current\tFile Name|Suggested File Name|Area") := by
  decide

/-- C5 (amended): the canonical column key is the trimmed cell lowercased
with all *space characters* removed, so matching is insensitive to case
and to spaces inside column names (but not to other whitespace such as
tabs). -/
theorem header_key_space_and_case_insensitive :
    (∀ l1 l2 : List Char, pyLower l1 = pyLower l2 → normHeader l1 = normHeader l2) ∧
    (∀ l1 l2 : List Char, normHeader (l1 ++ ' ' :: l2) = normHeader (l1 ++ l2)) ∧
    normHeader (str "Current File Name") = str "currentfilename" ∧
    headersOf (str "CURRENT FILE NAME| Suggested   File Name |arEa") = required_headers := by
  refine ⟨fun l1 l2 h => ?_, fun l1 l2 => ?_, by decide, by decide⟩
  · rw [normHeader, normHeader, h]
  · simp [normHeader, pyLower, List.filter_cons, show Char.toLower ' ' = ' ' from by decide]

theorem header_key_space_and_case_insensitive_witness :
    normHeader (str "AREA") = normHeader (str "ArEa") :=
  header_key_space_and_case_insensitive.1 (str "AREA") (str "ArEa") (by decide)

/-- C8: the `Tags` value, when present and non-empty after trimming, has
every semicolon replaced by a comma before being handed to metadata
stamping; `"sunset;beach;ocean"` becomes `"sunset,beach,ocean"`, using
`,` as separator and preserving the three terms in order. -/
theorem tags_semicolons_replaced_for_stamping :
    (∀ t, tagsValue t = pyReplace ';' ',' (pyStrip t)) ∧
    (∀ (row : RowDict) (t : List Char), row.tags = some t → (pyStrip t).isEmpty = false →
      ∃ pre, metadataCommands row =
        pre ++ [str "-Keywords=" ++ quoteChar :: pyReplace ';' ',' (pyStrip t) ++ [quoteChar]]) ∧
    tagsValue (str "sunset;beach;ocean") = str "sunset,beach,ocean" ∧
    pySplit ',' (tagsValue (str "sunset;beach;ocean")) =
      [str "sunset", str "beach", str "ocean"] := by
  refine ⟨tagsValue_eq_replace, ?_, by decide, by decide⟩
  intro row t ht he
  refine ⟨(match row.date with
    | some d => if (!(pyStrip d).isEmpty) = true then
        [str "-DateTimeOriginal=" ++ quoteChar :: pyStrip d ++ [quoteChar]] else []
    | none => []), ?_⟩
  rw [metadataCommands, ht]
  simp [he, tagsValue_eq_replace]

theorem tags_semicolons_replaced_for_stamping_witness :
    ∃ pre, metadataCommands
        ⟨str "1", str "b", str "c", none, some (str "sunset;beach;ocean")⟩ =
      pre ++ [str "-Keywords=" ++ quoteChar ::
        pyReplace ';' ',' (pyStrip (str "sunset;beach;ocean")) ++ [quoteChar]] :=
  tags_semicolons_replaced_for_stamping.2.1 _ _ rfl (by decide)

theorem parse_none_of_missing (hstr rstr r : List Char)
    (hr : r ∈ required_headers) (hnot : r ∉ headersOf hstr) :
    parse_markdown_table (.found hstr rstr) = none := by
  simp only [parse_markdown_table]
  by_cases hm : (required_headers.filter fun x =>
      !(headersOf hstr).contains x && !((headersOf hstr).any fun h => pyContainsSub x h)) ≠ []
  · rw [if_pos hm]
  · rw [if_neg hm]
    have hguard : ¬((str "currentfilename") ∈ headersOf hstr ∧
        (str "suggestedfilename") ∈ headersOf hstr ∧ (str "area") ∈ headersOf hstr) := by
      intro hg
      simp only [required_headers, List.mem_cons, List.not_mem_nil, or_false] at hr
      rcases hr with h | h | h <;> subst h
      · exact hnot hg.1
      · exact hnot hg.2.1
      · exact hnot hg.2.2
    rw [if_neg hguard]

theorem organize_abort_of_parse_none (env : Env)
    (hp : parse_markdown_table env.table = none) :
    organize_pictures env = { ok := false, st := initState env } := by
  rw [organize_pictures]
  cases hx : env.exiftoolAvailable with
  | false => simp [hx]
  | true =>
    cases hm : env.markdownExists with
    | false => simp [hx, hm]
    | true => simp [hx, hm, hp]

/-- C1: whenever the table header lacks one of the required canonical
keys, extraction fails (`parse_markdown_table` yields `None` — through
the `missing_headers` check, or through the caught `ValueError` of
`headers.index` when a soft substring match suppressed the check) and the
run aborts with zero rows processed, zero files moved, and the file
system untouched. -/
theorem missing_required_column_aborts_run (env : Env) (hstr rstr r : List Char)
    (ht : env.table = .found hstr rstr)
    (hr : r ∈ required_headers) (hnot : r ∉ headersOf hstr) :
    parse_markdown_table env.table = none ∧
    (organize_pictures env).ok = false ∧
    (organize_pictures env).st.processed = 0 ∧
    (organize_pictures env).st.movedCount = 0 ∧
    (organize_pictures env).st.fs = env.fs := by
  have hp : parse_markdown_table env.table = none := by
    rw [ht]
    exact parse_none_of_missing hstr rstr r hr hnot
  have ho := organize_abort_of_parse_none env hp
  rw [ho]
  exact ⟨hp, rfl, rfl, rfl, rfl⟩

theorem missing_required_column_aborts_run_witness :
    parse_markdown_table
      (TableSearch.found (str "Suggested File Name|Area") (str "|a|b|")) = none ∧
    (organize_pictures ⟨true, true,
      .found (str "Suggested File Name|Area") (str "|a|b|"), [], [], ⟨[], []⟩⟩).ok = false ∧
    (organize_pictures ⟨true, true,
      .found (str "Suggested File Name|Area") (str "|a|b|"), [], [], ⟨[], []⟩⟩).st.processed = 0 ∧
    (organize_pictures ⟨true, true,
      .found (str "Suggested File Name|Area") (str "|a|b|"), [], [], ⟨[], []⟩⟩).st.movedCount = 0 ∧
    (organize_pictures ⟨true, true,
      .found (str "Suggested File Name|Area") (str "|a|b|"), [], [], ⟨[], []⟩⟩).st.fs = ⟨[], []⟩ :=
  missing_required_column_aborts_run
    ⟨true, true, .found (str "Suggested File Name|Area") (str "|a|b|"), [], [], ⟨[], []⟩⟩
    (str "Suggested File Name|Area") (str "|a|b|") (str "currentfilename")
    rfl (by decide) (by decide)

/-- C6: a row whose `CurrentFileName`, `SuggestedFileName` or `Area` is
empty after trimming is skipped: the error count is incremented by
exactly one, no other state component (file system, success count, move
count, stamping trace, error list) changes, and the run continues with
the next row. -/
theorem empty_required_field_row_skipped (env : Env) (st : RunState) (row : RowDict)
    (h : pyStrip row.currentFileName = [] ∨ pyStrip row.suggestedFileName = [] ∨
      pyStrip row.area = []) :
    processRow env st row =
      { st with processed := st.processed + 1, errorCount := st.errorCount + 1 } ∧
    ∀ rest : List RowDict, (row :: rest).foldl (processRow env) st =
      rest.foldl (processRow env)
        { st with processed := st.processed + 1, errorCount := st.errorCount + 1 } := by
  have hcond : ((pyStrip row.currentFileName).isEmpty ||
      (pyStrip row.suggestedFileName).isEmpty || (pyStrip row.area).isEmpty) = true := by
    rcases h with h | h | h <;> simp [h]
  have h1 : processRow env st row =
      { st with processed := st.processed + 1, errorCount := st.errorCount + 1 } := by
    simp only [processRow]
    simp [hcond]
  exact ⟨h1, fun rest => by rw [List.foldl_cons, h1]⟩

theorem empty_required_field_row_skipped_witness :
    processRow ⟨true, true, .notFound, [], [], ⟨[], []⟩⟩
      ⟨0, 0, [], 0, 0, [], ⟨[], []⟩⟩ ⟨[], str "b", str "c", none, none⟩ =
      ⟨0, 1, [], 1, 0, [], ⟨[], []⟩⟩ :=
  (empty_required_field_row_skipped ⟨true, true, .notFound, [], [], ⟨[], []⟩⟩
    ⟨0, 0, [], 0, 0, [], ⟨[], []⟩⟩ ⟨[], str "b", str "c", none, none⟩
    (Or.inl (by decide))).1

/-- C9: when the external metadata tool is unavailable the run returns a
failure outcome immediately, before consulting the input file or the
table — the result is the same for every value of `markdownExists` and of
the table search, and no state changes. -/
theorem exiftool_unavailable_aborts_first (env : Env)
    (h : env.exiftoolAvailable = false) :
    organize_pictures env = { ok := false, st := initState env } ∧
    ∀ (b : Bool) (t : TableSearch),
      organize_pictures { env with markdownExists := b, table := t } =
        { ok := false, st := initState env } := by
  constructor
  · rw [organize_pictures]
    simp [h]
  · intro b t
    rw [organize_pictures]
    simp [h, initState]

theorem exiftool_unavailable_aborts_first_witness :
    organize_pictures ⟨false, true, .notFound, [], [], ⟨[], []⟩⟩ =
      { ok := false, st := initState ⟨false, true, .notFound, [], [], ⟨[], []⟩⟩ } ∧
    organize_pictures ⟨false, true, .found (str "x") (str "y"), [], [], ⟨[], []⟩⟩ =
      { ok := false, st := initState ⟨false, true, .notFound, [], [], ⟨[], []⟩⟩ } := by
  have h := exiftool_unavailable_aborts_first ⟨false, true, .notFound, [], [], ⟨[], []⟩⟩ rfl
  exact ⟨h.1, h.2 true (.found (str "x") (str "y"))⟩

/-- C10: when the table block is found and every body line is dropped for
insufficient cells, parsing yields `some []`, and the run treats the
empty row list as a fatal parse failure (`if not file_data`): it returns
a failure outcome with no row processed. -/
theorem all_rows_dropped_fatal (env : Env) (hstr rstr : List Char)
    (he : env.exiftoolAvailable = true) (hm : env.markdownExists = true)
    (ht : env.table = .found hstr rstr)
    (h1 : str "currentfilename" ∈ headersOf hstr)
    (h2 : str "suggestedfilename" ∈ headersOf hstr)
    (h3 : str "area" ∈ headersOf hstr)
    (hshort : ∀ line ∈ pySplit '\n' (pyStrip rstr),
      (cellsOf line).length <
        max (idxOf (str "currentfilename") (headersOf hstr))
          (max (idxOf (str "suggestedfilename") (headersOf hstr))
            (idxOf (str "area") (headersOf hstr))) + 1) :
    parse_markdown_table env.table = some [] ∧
    organize_pictures env = { ok := false, st := initState env } := by
  have hp : parse_markdown_table env.table = some [] := by
    rw [ht]
    simp only [parse_markdown_table]
    have hmiss : (required_headers.filter fun x =>
        !(headersOf hstr).contains x &&
          !((headersOf hstr).any fun h => pyContainsSub x h)) = [] := by
      rw [List.filter_eq_nil_iff]
      intro a ha
      have hmem : a ∈ headersOf hstr := by
        simp only [required_headers, List.mem_cons, List.not_mem_nil, or_false] at ha
        rcases ha with h | h | h <;> subst h
        · exact h1
        · exact h2
        · exact h3
      simp [List.contains, hmem]
    rw [if_neg (not_ne_iff.mpr hmiss)]
    rw [if_pos ⟨h1, h2, h3⟩]
    congr 1
    rw [List.filterMap_eq_nil_iff]
    intro line hl
    have hlen := hshort line hl
    simp only [parseRow]
    rw [if_neg (by omega)]
  have ho : organize_pictures env = { ok := false, st := initState env } := by
    rw [organize_pictures]
    simp [he, hm, hp]
  exact ⟨hp, ho⟩

theorem all_rows_dropped_fatal_witness :
    parse_markdown_table
      (TableSearch.found (str "CurrentFileName|SuggestedFileName|Area") (str "|a|\n|b|")) =
      some [] ∧
    organize_pictures ⟨true, true,
      .found (str "CurrentFileName|SuggestedFileName|Area") (str "|a|\n|b|"),
      [], [], ⟨[], []⟩⟩ =
      { ok := false, st := initState ⟨true, true,
        .found (str "CurrentFileName|SuggestedFileName|Area") (str "|a|\n|b|"),
        [], [], ⟨[], []⟩⟩ } :=
  all_rows_dropped_fatal
    ⟨true, true, .found (str "CurrentFileName|SuggestedFileName|Area") (str "|a|\n|b|"),
      [], [], ⟨[], []⟩⟩
    (str "CurrentFileName|SuggestedFileName|Area") (str "|a|\n|b|")
    rfl rfl rfl (by decide) (by decide) (by decide) (by decide)
